import Mathlib

/-!
Shallow embedding of the pfs-acpi Linux backend (`src/acpi_linux.cpp`).

The repository's current public header (the one declaring `battery`,
`ac_adapter`, `thermal_zone`, `fan`, `charge_state_enum` and the
`dev_*` mask constants used by `acpi_linux.cpp`) is not present in the
snapshot — `include/pfs/acpi.hpp` is a stale, incompatible libacpi-based
revision.  Those data declarations are therefore modelled from the spec
(section 3), as marked on each definition; all behaviour (reading,
parsing, derivation, acquisition, accessors) is translated from
`src/acpi_linux.cpp`.

Modelling conventions:
  * C `int` values are modelled as unbounded `Int`; C++ integer division
    (truncation toward zero) is `Int.tdiv`.
  * The comparisons with the `double` constants `MIN_CAPACITY` and
    `MIN_PRESENT_RATE` (both `0.01`) applied to `int` operands are exact,
    so `n < 0.01` is embedded as `100 * n < 1` and `n > 0.01` as
    `100 * n > 1`.
  * The `float` field `thermal_zone::temperature` is modelled as `Rat`
    (no claim depends on binary-float rounding).
  * The sysfs tree is a value: a list of device directories per category,
    each a name plus an association list of attribute files.  `fopen`
    failure (missing file / permission / I/O error) is modelled as the
    attribute being absent from the association list, which is the sole
    failure channel the code distinguishes (it returns `""` in all cases).
  * `chdir("/sys/class/") == 0` is the `root_reachable` flag;
    `chdir(direntry) == 0` inside a visitor is the device's `readable`
    flag.
-/

/-- Modelled from the spec: battery charge state enumeration
(unknown / charging / discharging / charged); the enumerator names follow
the code's uses (`charge_state_enum::charge` etc.), `unknown` first so that
value-initialisation yields `unknown`. -/
inductive charge_state_enum where
  | unknown
  | charge
  | discharge
  | charged
deriving DecidableEq, Repr

/-- Modelled from the spec: AC adapter state enumeration; the Linux code
uses `unsupported`, `offline`, `online`, with `unsupported` first so that
value-initialisation yields `unsupported`. -/
inductive ac_state_enum where
  | unsupported
  | offline
  | online
deriving DecidableEq, Repr

/-- Modelled from the spec: the public `battery` record (name,
manufacturer, model name, technology, charge state, percentage, seconds).
Numeric members are C `int`s. -/
structure battery where
  name : String
  manufacturer : String
  model_name : String
  technology : String
  charge_state : charge_state_enum
  percentage : Int
  seconds : Int
deriving DecidableEq, Repr

/-- `battery{}` value-initialisation: empty strings, zeroed numbers,
first enumerator. -/
def default_battery : battery :=
  { name := "", manufacturer := "", model_name := "", technology := ""
  , charge_state := charge_state_enum.unknown, percentage := 0, seconds := 0 }

/-- `details::battery_extended` from `acpi_linux.cpp`: the battery plus the
internal fields used during derivation. -/
structure battery_extended extends battery where
  remaining_capacity : Int
  remaining_energy : Int
  present_rate : Int
  last_capacity : Int
  last_capacity_unit : Int
  voltage : Int
deriving DecidableEq, Repr

/-- `battery_extended{}` value-initialisation. -/
def default_battery_extended : battery_extended :=
  { default_battery with
    remaining_capacity := 0, remaining_energy := 0, present_rate := 0
  , last_capacity := 0, last_capacity_unit := 0, voltage := 0 }

/-- Modelled from the spec: the public `ac_adapter` record. -/
structure ac_adapter where
  name : String
  state : ac_state_enum
deriving DecidableEq, Repr

/-- `ac_adapter{}` value-initialisation. -/
def default_ac_adapter : ac_adapter :=
  { name := "", state := ac_state_enum.unsupported }

/-- Modelled from the spec: the public `thermal_zone` record; the C++
`float` temperature is modelled as `Rat`. -/
structure thermal_zone where
  name : String
  temperature : Rat
deriving DecidableEq, Repr

/-- `thermal_zone{}` value-initialisation. -/
def default_thermal_zone : thermal_zone :=
  { name := "", temperature := 0 }

/-- Modelled from the spec: the public `fan` record. -/
structure fan where
  name : String
  cur_state : Int
  max_state : Int
deriving DecidableEq, Repr

/-- `fan{}` value-initialisation. -/
def default_fan : fan :=
  { name := "", cur_state := 0, max_state := 0 }

/-- Modelled from the spec: the device-kind mask flags
{battery, ac_adapter, thermal_zone, fan}, one distinct bit each. -/
def dev_battery : Nat := 1

/-- Modelled from the spec: AC-adapter flag of the device-kind mask. -/
def dev_ac_adapter : Nat := 2

/-- Modelled from the spec: thermal-zone flag of the device-kind mask. -/
def dev_thermal_zone : Nat := 4

/-- Modelled from the spec: fan flag of the device-kind mask. -/
def dev_fan : Nat := 8

/-- Modelled from the spec: the full mask, the default argument of
`acquire`. -/
def dev_all : Nat := dev_battery ||| dev_ac_adapter ||| dev_thermal_zone ||| dev_fan

/-- A sysfs device directory: its name, whether `chdir` into it succeeds,
and its attribute files (name, content). -/
structure device where
  name : String
  readable : Bool
  attrs : List (String × String)
deriving DecidableEq, Repr

/-- The sysfs tree visible to the Linux backend: whether
`chdir("/sys/class/")` succeeds, and the subdirectories of the
`power_supply` and `thermal` categories (a missing category directory
behaves exactly like an empty one: no entry is visited). -/
structure sysfs where
  root_reachable : Bool
  power_supply : List device
  thermal : List device
deriving DecidableEq, Repr

/-- `details::acpi`'s private state: the four result vectors. -/
structure acpiState where
  _batteries : List battery_extended
  _ac_adapters : List ac_adapter
  _thermal_zones : List thermal_zone
  _fans : List fan
deriving DecidableEq, Repr

/-- The freshly constructed `details::acpi` (all vectors empty). -/
def acpiState.empty : acpiState :=
  { _batteries := [], _ac_adapters := [], _thermal_zones := [], _fans := [] }

/-- Attribute-file lookup: `fopen` returning a stream (`some content`) or
failing (`none`). -/
def lookupAttr (attrs : List (String × String)) (name : String) : Option String :=
  (attrs.find? (fun p => p.fst == name)).map Prod.snd

/-- The body of the chunked read loop, structurally recursive on a fuel
argument so that it evaluates by kernel reduction; each iteration of the C
loop consumes at least one character, so an initial fuel of the content's
length runs the loop to completion (see `read_chunks_step`). -/
def read_chunks_go (trim : Bool) : Nat → List Char → List Char
  | _, [] => []
  | 0, _ :: _ => []
  | fuel + 1, c :: cs0 =>
      let cs := c :: cs0
      let chunk := cs.take 64
      let tchunk :=
        if trim ∧ cs.length < 64 ∧ chunk.getLast? = some '\n' then chunk.dropLast
        else chunk
      tchunk ++ read_chunks_go trim fuel (cs.drop 64)

/-- The chunked read loop of `read_all`: `fread` yields chunks of
`BUF_SZ = 64` bytes (short only at end of file); when trimming is
requested, a chunk with `0 < n < 64` that ends in a newline loses that
newline before being appended. -/
def read_chunks (trim : Bool) (cs : List Char) : List Char :=
  read_chunks_go trim cs.length cs

/-- `details::read_all` from `acpi_linux.cpp`: returns the file content
(chunk-processed for newline trimming); any `fopen` failure returns the
empty string. -/
def read_all (dev : device) (name : String) (trim : Bool) : String :=
  match lookupAttr dev.attrs name with
  | none => ""
  | some content => String.mk (read_chunks trim content.data)

/-- C whitespace for `sscanf` (`isspace` in the C locale). -/
def cIsSpace (c : Char) : Bool :=
  c = ' ' ∨ c = '\t' ∨ c = '\n' ∨ c = '\x0b' ∨ c = '\x0c' ∨ c = '\r'

/-- Digit-string value accumulator. -/
def digitsToNat (ds : List Char) : Nat :=
  ds.foldl (fun a c => 10 * a + (c.toNat - Char.toNat '0')) 0

/-- `details::unit_value` from `acpi_linux.cpp`: `n = -1` then
`sscanf(s, "%d", &n)` — skip leading whitespace, optional sign, a
nonempty digit run; when no conversion happens `n` keeps `-1`. -/
def unit_value (s : String) : Int :=
  let cs := s.data.dropWhile cIsSpace
  let signAndRest : Int × List Char :=
    match cs with
    | '-' :: rest => (-1, rest)
    | '+' :: rest => (1, rest)
    | _ => (1, cs)
  let digits := signAndRest.snd.takeWhile Char.isDigit
  if digits = [] then -1
  else signAndRest.fst * Int.ofNat (digitsToNat digits)

/-- `strncasecmp(s, prefix, strlen(prefix)) == 0` for an ASCII prefix:
case-insensitive prefix test. -/
def ciStartsWith (s p : String) : Bool :=
  (p.data.map Char.toLower).isPrefixOf (s.data.map Char.toLower)

/-- `is_dir_entry`: the `.` and `..` entries skipped by the walker. -/
def is_dir_entry (name : String) : Bool :=
  name == "." || name == ".."

/-- The status-string mapping of `acquire_power_supply`: default
`unknown`, then prefix tests for `disch`, `full`, `chargi`. -/
def parse_charge_state (s : String) : charge_state_enum :=
  if ciStartsWith s "disch" then charge_state_enum.discharge
  else if ciStartsWith s "full" then charge_state_enum.charged
  else if ciStartsWith s "chargi" then charge_state_enum.charge
  else charge_state_enum.unknown

/-- A raw numeric attribute: read newline-trimmed; empty (absent) gives
`-1`, otherwise the parsed value divided by 1000 (C truncation). -/
def readIntField (dev : device) (name : String) : Int :=
  let s := read_all dev name true
  if s = "" then -1 else Int.tdiv (unit_value s) 1000

/-- The raw-reading stage of the battery branch of
`acquire_power_supply` (lines 156–220): textual fields, status, and the
six numeric fields with their absence defaults, the `power_now` fallback
for `present_rate`, and the zero-voltage normalisation. `percentage` and
`seconds` still hold their value-initialised `0`; they are assigned by
the derivation stage. -/
def read_battery_raw (dev : device) : battery_extended :=
  let present_rate_s :=
    let s := read_all dev "current_now" true
    if s = "" then read_all dev "power_now" true else s
  { name := dev.name
  , manufacturer := read_all dev "manufacturer" true
  , model_name := read_all dev "model_name" true
  , technology := read_all dev "technology" true
  , charge_state := parse_charge_state (read_all dev "status" true)
  , percentage := 0
  , seconds := 0
  , remaining_capacity := readIntField dev "charge_now"
  , remaining_energy := readIntField dev "energy_now"
  , present_rate :=
      if present_rate_s = "" then -1 else Int.tdiv (unit_value present_rate_s) 1000
  , last_capacity := readIntField dev "charge_full"
  , last_capacity_unit := readIntField dev "energy_full"
  , voltage :=
      let v := readIntField dev "voltage_now"
      if v = 0 then -1 else v }

/-- Recalculation of `last_capacity` from `last_capacity_unit` (lines
225–231). -/
def recalc_last_capacity (b : battery_extended) : battery_extended :=
  if b.last_capacity_unit ≠ -1 ∧ b.last_capacity = -1 then
    if b.voltage ≠ -1 then
      { b with last_capacity := Int.tdiv (b.last_capacity_unit * 1000) b.voltage }
    else
      { b with last_capacity := b.last_capacity_unit }
  else b

/-- Recalculation of `remaining_capacity` (and rescaling of
`present_rate`) from `remaining_energy` (lines 233–240). -/
def recalc_remaining (b : battery_extended) : battery_extended :=
  if b.remaining_energy ≠ -1 ∧ b.remaining_capacity = -1 then
    if b.voltage ≠ -1 then
      { b with
        remaining_capacity := Int.tdiv (b.remaining_energy * 1000) b.voltage
      , present_rate := Int.tdiv (b.present_rate * 1000) b.voltage }
    else
      { b with remaining_capacity := b.remaining_energy }
  else b

/-- The percentage computation (lines 242–248): `0` when
`last_capacity < MIN_CAPACITY` (i.e. `100 * last_capacity < 1`), else
`remaining_capacity * 100 / last_capacity`, then clamped above at 100. -/
def compute_percentage (b : battery_extended) : battery_extended :=
  let p : Int :=
    if 100 * b.last_capacity < 1 then 0
    else Int.tdiv (b.remaining_capacity * 100) b.last_capacity
  { b with percentage := if p > 100 then 100 else p }

/-- The seconds computation (lines 250–268). -/
def compute_seconds (b : battery_extended) : battery_extended :=
  let s : Int :=
    if b.present_rate = -1 then -1
    else if b.charge_state = charge_state_enum.charge then
      if 100 * b.present_rate > 1 then
        Int.tdiv (3600 * (b.last_capacity - b.remaining_capacity)) b.present_rate
      else -1
    else if b.charge_state = charge_state_enum.discharge then
      if 100 * b.present_rate > 1 then
        Int.tdiv (3600 * b.remaining_capacity) b.present_rate
      else -1
    else -1
  { b with seconds := s }

/-- The full battery branch: raw reads followed by the derivations, in
source order. -/
def mk_battery (dev : device) : battery_extended :=
  compute_seconds (compute_percentage (recalc_remaining (recalc_last_capacity
    (read_battery_raw dev))))

/-- The AC-adapter branch of `acquire_power_supply` (lines 269–283). -/
def mk_ac_adapter (dev : device) : ac_adapter :=
  let online := read_all dev "online" true
  { name := dev.name
  , state :=
      if online = "" then ac_state_enum.unsupported
      else if unit_value online = 0 then ac_state_enum.offline
      else ac_state_enum.online }

/-- The thermal-zone branch of `acquire_thermal` (lines 304–313);
`temp` is read untrimmed and the value is `unit_value / 1000.0`. -/
def mk_thermal_zone (dev : device) : thermal_zone :=
  let t := read_all dev "temp" false
  { name := dev.name
  , temperature := if t = "" then -1 else (unit_value t : Rat) / 1000 }

/-- The fan branch of `acquire_thermal` (lines 314–331); `cur_state` and
`max_state` are read untrimmed and not divided. -/
def mk_fan (dev : device) : fan :=
  let cur := read_all dev "cur_state" false
  let mx := read_all dev "max_state" false
  { name := dev.name
  , cur_state := if cur = "" then -1 else unit_value cur
  , max_state := if mx = "" then -1 else unit_value mx }

/-- The power-supply visitor (lines 140–284): skip `.`/`..`, classify via
the `type` attribute, and append to the requested kind's vector. -/
def visit_power_supply (devices : Nat) (st : acpiState) (dev : device) : acpiState :=
  if is_dir_entry dev.name then st
  else if ¬ dev.readable then st
  else
    let type := read_all dev "type" false
    let is_battery := ciStartsWith type "battery"
    let is_ac_adapter := ¬ is_battery ∧ ciStartsWith type "mains"
    if is_battery ∧ devices &&& dev_battery ≠ 0 then
      { st with _batteries := st._batteries ++ [mk_battery dev] }
    else if is_ac_adapter ∧ devices &&& dev_ac_adapter ≠ 0 then
      { st with _ac_adapters := st._ac_adapters ++ [mk_ac_adapter dev] }
    else st

/-- The thermal visitor (lines 289–332): an entry whose `temp` attribute
reads empty is a fan, otherwise a thermal zone. -/
def visit_thermal (devices : Nat) (st : acpiState) (dev : device) : acpiState :=
  if is_dir_entry dev.name then st
  else if ¬ dev.readable then st
  else
    let temperature := read_all dev "temp" false
    let is_fan := temperature = ""
    if ¬ is_fan ∧ devices &&& dev_thermal_zone ≠ 0 then
      { st with _thermal_zones := st._thermal_zones ++ [mk_thermal_zone dev] }
    else if is_fan ∧ devices &&& dev_fan ≠ 0 then
      { st with _fans := st._fans ++ [mk_fan dev] }
    else st

/-- `acquire_devices` + `acpi::acquire_power_supply`: no visit at all when
the root is unreachable, otherwise one visit per directory entry. -/
def acquire_power_supply (fs : sysfs) (devices : Nat) (st : acpiState) : acpiState :=
  if fs.root_reachable then fs.power_supply.foldl (visit_power_supply devices) st
  else st

/-- `acquire_devices` + `acpi::acquire_thermal`. -/
def acquire_thermal (fs : sysfs) (devices : Nat) (st : acpiState) : acpiState :=
  if fs.root_reachable then fs.thermal.foldl (visit_thermal devices) st
  else st

/-- `acpi::acquire` (lines 482–491): run the power-supply pass when the
mask holds battery or AC-adapter, then the thermal pass when it holds
thermal-zone or fan. -/
def acquire (fs : sysfs) (devices : Nat) (st : acpiState) : acpiState :=
  let st1 :=
    if devices &&& dev_battery ≠ 0 ∨ devices &&& dev_ac_adapter ≠ 0 then
      acquire_power_supply fs devices st
    else st
  if devices &&& dev_thermal_zone ≠ 0 ∨ devices &&& dev_fan ≠ 0 then
    acquire_thermal fs devices st1
  else st1

/-- `acpi::has_acpi_support` (lines 471–474): `chdir("/sys/class/") == 0`. -/
def has_acpi_support (fs : sysfs) : Bool :=
  fs.root_reachable

/-- `acpi::battery_at` (lines 355–361): in-range indices return the stored
entry (sliced to its public `battery` part, as the C++ return-by-value
does), anything else returns `battery{}`. -/
def battery_at (st : acpiState) (index : Int) : battery :=
  if 0 ≤ index ∧ index < st._batteries.length then
    (st._batteries.getD index.toNat default_battery_extended).tobattery
  else default_battery

/-- `acpi::ac_adapter_at` (lines 363–369). -/
def ac_adapter_at (st : acpiState) (index : Int) : ac_adapter :=
  if 0 ≤ index ∧ index < st._ac_adapters.length then
    st._ac_adapters.getD index.toNat default_ac_adapter
  else default_ac_adapter

/-- `acpi::thermal_zone_at` (lines 371–377). -/
def thermal_zone_at (st : acpiState) (index : Int) : thermal_zone :=
  if 0 ≤ index ∧ index < st._thermal_zones.length then
    st._thermal_zones.getD index.toNat default_thermal_zone
  else default_thermal_zone

/-- `acpi::fan_at` (lines 379–385). -/
def fan_at (st : acpiState) (index : Int) : fan :=
  if 0 ≤ index ∧ index < st._fans.length then
    st._fans.getD index.toNat default_fan
  else default_fan

/-! ### Lemmas about the chunked reader -/

theorem read_chunks_nil (trim : Bool) : read_chunks trim [] = [] := rfl

theorem read_chunks_go_fuel (trim : Bool) :
    ∀ (fuel1 fuel2 : Nat) (cs : List Char), cs.length ≤ fuel1 →
      cs.length ≤ fuel2 → read_chunks_go trim fuel1 cs = read_chunks_go trim fuel2 cs := by
  intro fuel1
  induction fuel1 with
  | zero =>
    intro fuel2 cs h1 _
    have : cs = [] := List.length_eq_zero.mp (Nat.le_zero.mp h1)
    subst this
    cases fuel2 <;> rfl
  | succ n ih =>
    intro fuel2 cs h1 h2
    cases cs with
    | nil => cases fuel2 <;> rfl
    | cons c cs0 =>
      cases fuel2 with
      | zero => simp at h2
      | succ m =>
        show _ ++ read_chunks_go trim n ((c :: cs0).drop 64) =
          _ ++ read_chunks_go trim m ((c :: cs0).drop 64)
        have hd : ((c :: cs0).drop 64).length ≤ n := by
          simp only [List.length_drop, List.length_cons] at h1 ⊢
          omega
        have hd2 : ((c :: cs0).drop 64).length ≤ m := by
          simp only [List.length_drop, List.length_cons] at h2 ⊢
          omega
        rw [ih m _ hd hd2]

theorem read_chunks_step (trim : Bool) (cs : List Char) (h0 : cs ≠ []) :
    read_chunks trim cs =
      (if trim ∧ cs.length < 64 ∧ (cs.take 64).getLast? = some '\n'
       then (cs.take 64).dropLast else cs.take 64) ++
        read_chunks trim (cs.drop 64) := by
  obtain ⟨c, cs0, rfl⟩ := List.exists_cons_of_ne_nil h0
  show read_chunks_go trim (cs0.length + 1) (c :: cs0) = _
  rw [read_chunks_go]
  have hd : ((c :: cs0).drop 64).length ≤ cs0.length := by
    simp only [List.length_drop, List.length_cons]
    omega
  rw [read_chunks_go_fuel trim cs0.length ((c :: cs0).drop 64).length _ hd (Nat.le_refl _)]
  rfl

theorem read_chunks_long (trim : Bool) (cs : List Char) (h : 64 ≤ cs.length) :
    read_chunks trim cs = cs.take 64 ++ read_chunks trim (cs.drop 64) := by
  have hne : cs ≠ [] := by
    intro hcs
    rw [hcs] at h
    simp at h
  rw [read_chunks_step trim cs hne, if_neg]
  rintro ⟨-, hlt, -⟩
  omega

theorem read_chunks_short (trim : Bool) (cs : List Char) (h0 : cs ≠ [])
    (h : cs.length < 64) :
    read_chunks trim cs =
      if trim ∧ cs.getLast? = some '\n' then cs.dropLast else cs := by
  rw [read_chunks_step trim cs h0]
  have htake : cs.take 64 = cs := List.take_of_length_le (by omega)
  have hdrop : cs.drop 64 = [] := List.drop_eq_nil_of_le (by omega)
  rw [htake, hdrop, read_chunks_nil, List.append_nil]
  simp [h]

theorem read_chunks_id (trim : Bool) (cs : List Char)
    (h : trim = false ∨ cs.length % 64 = 0 ∨ cs.getLast? ≠ some '\n') :
    read_chunks trim cs = cs := by
  have H : ∀ (n : Nat) (cs : List Char), cs.length ≤ n →
      (trim = false ∨ cs.length % 64 = 0 ∨ cs.getLast? ≠ some '\n') →
      read_chunks trim cs = cs := by
    intro n
    induction n with
    | zero =>
      intro cs hlen _
      have : cs = [] := List.length_eq_zero.mp (Nat.le_zero.mp hlen)
      rw [this, read_chunks_nil]
    | succ n ih =>
      intro cs hlen hcond
      by_cases h0 : cs = []
      · rw [h0, read_chunks_nil]
      by_cases hlt : cs.length < 64
      · rw [read_chunks_short trim cs h0 hlt, if_neg]
        rintro ⟨ht, hnl⟩
        rcases hcond with hf | hm | hl
        · rw [ht] at hf
          simp at hf
        · have : cs.length % 64 = cs.length := Nat.mod_eq_of_lt hlt
          have : cs.length = 0 := by omega
          exact h0 (List.length_eq_zero.mp this)
        · exact hl hnl
      · push_neg at hlt
        rw [read_chunks_long trim cs hlt]
        have hrec : read_chunks trim (cs.drop 64) = cs.drop 64 := by
          apply ih
          · have hpos : 0 < cs.length := List.length_pos.mpr h0
            simp only [List.length_drop]
            omega
          · rcases hcond with hf | hm | hl
            · exact Or.inl hf
            · refine Or.inr (Or.inl ?_)
              simp only [List.length_drop]
              omega
            · by_cases hd : cs.drop 64 = []
              · refine Or.inr (Or.inl ?_)
                rw [hd]
                simp
              · refine Or.inr (Or.inr ?_)
                intro hlast
                apply hl
                have := List.take_append_drop 64 cs
                calc cs.getLast? = (cs.take 64 ++ cs.drop 64).getLast? := by rw [this]
                  _ = ((cs.drop 64).getLast?).or ((cs.take 64).getLast?) :=
                      List.getLast?_append
                  _ = some '\n' := by rw [hlast]; rfl
        rw [hrec, List.take_append_drop]
  exact H cs.length cs (Nat.le_refl _) h

theorem read_chunks_trim_last (cs : List Char)
    (h1 : cs.length % 64 ≠ 0) (h2 : cs.getLast? = some '\n') :
    read_chunks true cs = cs.dropLast := by
  have H : ∀ (n : Nat) (cs : List Char), cs.length ≤ n →
      cs.length % 64 ≠ 0 → cs.getLast? = some '\n' →
      read_chunks true cs = cs.dropLast := by
    intro n
    induction n with
    | zero =>
      intro cs hlen hm _
      have : cs = [] := List.length_eq_zero.mp (Nat.le_zero.mp hlen)
      rw [this] at hm
      simp at hm
    | succ n ih =>
      intro cs hlen hm hlast
      have h0 : cs ≠ [] := by
        intro hcs
        rw [hcs] at hm
        simp at hm
      by_cases hlt : cs.length < 64
      · rw [read_chunks_short true cs h0 hlt, if_pos ⟨rfl, hlast⟩]
      · push_neg at hlt
        have hgt : 64 < cs.length := by
          rcases Nat.lt_or_ge 64 cs.length with h | h
          · exact h
          · have : cs.length = 64 := Nat.le_antisymm h hlt
            rw [this] at hm
            simp at hm
        have hdne : cs.drop 64 ≠ [] := by
          intro hd
          have := congrArg List.length hd
          simp only [List.length_drop, List.length_nil] at this
          omega
        rw [read_chunks_long true cs hlt]
        have hrec : read_chunks true (cs.drop 64) = (cs.drop 64).dropLast := by
          apply ih
          · simp only [List.length_drop]
            omega
          · simp only [List.length_drop]
            omega
          · have := List.take_append_drop 64 cs
            have hc : cs.getLast? = ((cs.drop 64).getLast?).or ((cs.take 64).getLast?) := by
              conv_lhs => rw [← this]
              exact List.getLast?_append
            rw [hlast] at hc
            cases hdl : (cs.drop 64).getLast? with
            | none => exact absurd (List.getLast?_eq_none_iff.mp hdl) hdne
            | some c =>
              rw [hdl] at hc
              simpa using hc.symm
        rw [hrec]
        conv_rhs => rw [← List.take_append_drop 64 cs]
        exact (List.dropLast_append_of_ne_nil _ hdne).symm
  exact H cs.length cs (Nat.le_refl _) h1 h2

/-! ### Append/frame lemmas for the acquisition passes -/

theorem foldl_app_gen {α : Type} (g : acpiState → List α)
    (f : acpiState → device → acpiState) (P : Prop) (Q : α → Prop)
    (hf : ∀ st dev, ∃ t, g (f st dev) = g st ++ t ∧ (P → t = []) ∧ ∀ x ∈ t, Q x) :
    ∀ (l : List device) (st : acpiState),
      ∃ t, g (l.foldl f st) = g st ++ t ∧ (P → t = []) ∧ ∀ x ∈ t, Q x := by
  intro l
  induction l with
  | nil =>
    intro st
    exact ⟨[], by simp, fun _ => rfl, by simp⟩
  | cons d l ih =>
    intro st
    obtain ⟨t1, h1, hp1, hq1⟩ := hf st d
    obtain ⟨t2, h2, hp2, hq2⟩ := ih (f st d)
    refine ⟨t1 ++ t2, ?_, ?_, ?_⟩
    · rw [List.foldl_cons, h2, h1, List.append_assoc]
    · intro hp
      rw [hp1 hp, hp2 hp]
      rfl
    · intro x hx
      rcases List.mem_append.mp hx with h | h
      · exact hq1 x h
      · exact hq2 x h

theorem foldl_preserve {α : Type} (g : acpiState → List α)
    (f : acpiState → device → acpiState) (hf : ∀ st dev, g (f st dev) = g st) :
    ∀ (l : List device) (st : acpiState), g (l.foldl f st) = g st := by
  intro l
  induction l with
  | nil => intro st; rfl
  | cons d l ih =>
    intro st
    rw [List.foldl_cons, ih, hf]

theorem visit_ps_batteries (d : Nat) (st : acpiState) (dev : device) :
    ∃ t, (visit_power_supply d st dev)._batteries = st._batteries ++ t ∧
      (d &&& dev_battery = 0 → t = []) ∧ ∀ x ∈ t, ∃ dv, x = mk_battery dv := by
  unfold visit_power_supply
  dsimp only
  split
  · exact ⟨[], by simp, fun _ => rfl, by simp⟩
  split
  · exact ⟨[], by simp, fun _ => rfl, by simp⟩
  split
  · rename_i hc
    exact ⟨[mk_battery dev], rfl, fun hp => absurd hp hc.2, by
      intro x hx
      rw [List.mem_singleton.mp hx]
      exact ⟨dev, rfl⟩⟩
  split
  · exact ⟨[], by simp, fun _ => rfl, by simp⟩
  · exact ⟨[], by simp, fun _ => rfl, by simp⟩

theorem visit_ps_ac_adapters (d : Nat) (st : acpiState) (dev : device) :
    ∃ t, (visit_power_supply d st dev)._ac_adapters = st._ac_adapters ++ t ∧
      (d &&& dev_ac_adapter = 0 → t = []) ∧ ∀ x ∈ t, ∃ dv, x = mk_ac_adapter dv := by
  unfold visit_power_supply
  dsimp only
  split
  · exact ⟨[], by simp, fun _ => rfl, by simp⟩
  split
  · exact ⟨[], by simp, fun _ => rfl, by simp⟩
  split
  · exact ⟨[], by simp, fun _ => rfl, by simp⟩
  split
  · rename_i hc
    exact ⟨[mk_ac_adapter dev], rfl, fun hp => absurd hp hc.2, by
      intro x hx
      rw [List.mem_singleton.mp hx]
      exact ⟨dev, rfl⟩⟩
  · exact ⟨[], by simp, fun _ => rfl, by simp⟩

theorem visit_ps_thermal_zones (d : Nat) (st : acpiState) (dev : device) :
    (visit_power_supply d st dev)._thermal_zones = st._thermal_zones := by
  unfold visit_power_supply
  dsimp only
  split
  · rfl
  split
  · rfl
  split
  · rfl
  split
  · rfl
  · rfl

theorem visit_ps_fans (d : Nat) (st : acpiState) (dev : device) :
    (visit_power_supply d st dev)._fans = st._fans := by
  unfold visit_power_supply
  dsimp only
  split
  · rfl
  split
  · rfl
  split
  · rfl
  split
  · rfl
  · rfl

theorem visit_th_batteries (d : Nat) (st : acpiState) (dev : device) :
    (visit_thermal d st dev)._batteries = st._batteries := by
  unfold visit_thermal
  dsimp only
  split
  · rfl
  split
  · rfl
  split
  · rfl
  split
  · rfl
  · rfl

theorem visit_th_ac_adapters (d : Nat) (st : acpiState) (dev : device) :
    (visit_thermal d st dev)._ac_adapters = st._ac_adapters := by
  unfold visit_thermal
  dsimp only
  split
  · rfl
  split
  · rfl
  split
  · rfl
  split
  · rfl
  · rfl

theorem visit_th_thermal_zones (d : Nat) (st : acpiState) (dev : device) :
    ∃ t, (visit_thermal d st dev)._thermal_zones = st._thermal_zones ++ t ∧
      (d &&& dev_thermal_zone = 0 → t = []) ∧ ∀ x ∈ t, ∃ dv, x = mk_thermal_zone dv := by
  unfold visit_thermal
  dsimp only
  split
  · exact ⟨[], by simp, fun _ => rfl, by simp⟩
  split
  · exact ⟨[], by simp, fun _ => rfl, by simp⟩
  split
  · rename_i hc
    exact ⟨[mk_thermal_zone dev], rfl, fun hp => absurd hp hc.2, by
      intro x hx
      rw [List.mem_singleton.mp hx]
      exact ⟨dev, rfl⟩⟩
  split
  · exact ⟨[], by simp, fun _ => rfl, by simp⟩
  · exact ⟨[], by simp, fun _ => rfl, by simp⟩

theorem visit_th_fans (d : Nat) (st : acpiState) (dev : device) :
    ∃ t, (visit_thermal d st dev)._fans = st._fans ++ t ∧
      (d &&& dev_fan = 0 → t = []) ∧ ∀ x ∈ t, ∃ dv, x = mk_fan dv := by
  unfold visit_thermal
  dsimp only
  split
  · exact ⟨[], by simp, fun _ => rfl, by simp⟩
  split
  · exact ⟨[], by simp, fun _ => rfl, by simp⟩
  split
  · exact ⟨[], by simp, fun _ => rfl, by simp⟩
  split
  · rename_i hc
    exact ⟨[mk_fan dev], rfl, fun hp => absurd hp hc.2, by
      intro x hx
      rw [List.mem_singleton.mp hx]
      exact ⟨dev, rfl⟩⟩
  · exact ⟨[], by simp, fun _ => rfl, by simp⟩

theorem acquire_batteries_append (fs : sysfs) (d : Nat) (st : acpiState) :
    ∃ t, (acquire fs d st)._batteries = st._batteries ++ t ∧
      (d &&& dev_battery = 0 → t = []) ∧ ∀ x ∈ t, ∃ dv, x = mk_battery dv := by
  have hps : ∀ s : acpiState, ∃ t, (acquire_power_supply fs d s)._batteries =
      s._batteries ++ t ∧ (d &&& dev_battery = 0 → t = []) ∧
      ∀ x ∈ t, ∃ dv, x = mk_battery dv := by
    intro s
    unfold acquire_power_supply
    split
    · exact foldl_app_gen acpiState._batteries (visit_power_supply d) _ _
        (visit_ps_batteries d) fs.power_supply s
    · exact ⟨[], by simp, fun _ => rfl, by simp⟩
  have hth : ∀ s : acpiState, (acquire_thermal fs d s)._batteries = s._batteries := by
    intro s
    unfold acquire_thermal
    split
    · exact foldl_preserve acpiState._batteries (visit_thermal d)
        (visit_th_batteries d) fs.thermal s
    · rfl
  unfold acquire
  dsimp only
  split
  · split
    · obtain ⟨t, h1, h2, h3⟩ := hps st
      exact ⟨t, by rw [hth, h1], h2, h3⟩
    · exact ⟨[], by rw [hth]; simp, fun _ => rfl, by simp⟩
  · split
    · exact hps st
    · exact ⟨[], by simp, fun _ => rfl, by simp⟩

theorem acquire_ac_adapters_append (fs : sysfs) (d : Nat) (st : acpiState) :
    ∃ t, (acquire fs d st)._ac_adapters = st._ac_adapters ++ t ∧
      (d &&& dev_ac_adapter = 0 → t = []) ∧ ∀ x ∈ t, ∃ dv, x = mk_ac_adapter dv := by
  have hps : ∀ s : acpiState, ∃ t, (acquire_power_supply fs d s)._ac_adapters =
      s._ac_adapters ++ t ∧ (d &&& dev_ac_adapter = 0 → t = []) ∧
      ∀ x ∈ t, ∃ dv, x = mk_ac_adapter dv := by
    intro s
    unfold acquire_power_supply
    split
    · exact foldl_app_gen acpiState._ac_adapters (visit_power_supply d) _ _
        (visit_ps_ac_adapters d) fs.power_supply s
    · exact ⟨[], by simp, fun _ => rfl, by simp⟩
  have hth : ∀ s : acpiState, (acquire_thermal fs d s)._ac_adapters = s._ac_adapters := by
    intro s
    unfold acquire_thermal
    split
    · exact foldl_preserve acpiState._ac_adapters (visit_thermal d)
        (visit_th_ac_adapters d) fs.thermal s
    · rfl
  unfold acquire
  dsimp only
  split
  · split
    · obtain ⟨t, h1, h2, h3⟩ := hps st
      exact ⟨t, by rw [hth, h1], h2, h3⟩
    · exact ⟨[], by rw [hth]; simp, fun _ => rfl, by simp⟩
  · split
    · exact hps st
    · exact ⟨[], by simp, fun _ => rfl, by simp⟩

theorem acquire_thermal_zones_append (fs : sysfs) (d : Nat) (st : acpiState) :
    ∃ t, (acquire fs d st)._thermal_zones = st._thermal_zones ++ t ∧
      (d &&& dev_thermal_zone = 0 → t = []) ∧ ∀ x ∈ t, ∃ dv, x = mk_thermal_zone dv := by
  have hps : ∀ s : acpiState,
      (acquire_power_supply fs d s)._thermal_zones = s._thermal_zones := by
    intro s
    unfold acquire_power_supply
    split
    · exact foldl_preserve acpiState._thermal_zones (visit_power_supply d)
        (visit_ps_thermal_zones d) fs.power_supply s
    · rfl
  have hth : ∀ s : acpiState, ∃ t, (acquire_thermal fs d s)._thermal_zones =
      s._thermal_zones ++ t ∧ (d &&& dev_thermal_zone = 0 → t = []) ∧
      ∀ x ∈ t, ∃ dv, x = mk_thermal_zone dv := by
    intro s
    unfold acquire_thermal
    split
    · exact foldl_app_gen acpiState._thermal_zones (visit_thermal d) _ _
        (visit_th_thermal_zones d) fs.thermal s
    · exact ⟨[], by simp, fun _ => rfl, by simp⟩
  unfold acquire
  dsimp only
  split
  · split
    · obtain ⟨t, h1, h2, h3⟩ := hth (acquire_power_supply fs d st)
      exact ⟨t, by rw [h1, hps], h2, h3⟩
    · exact hth st
  · split
    · exact ⟨[], by rw [hps]; simp, fun _ => rfl, by simp⟩
    · exact ⟨[], by simp, fun _ => rfl, by simp⟩

theorem acquire_fans_append (fs : sysfs) (d : Nat) (st : acpiState) :
    ∃ t, (acquire fs d st)._fans = st._fans ++ t ∧
      (d &&& dev_fan = 0 → t = []) ∧ ∀ x ∈ t, ∃ dv, x = mk_fan dv := by
  have hps : ∀ s : acpiState, (acquire_power_supply fs d s)._fans = s._fans := by
    intro s
    unfold acquire_power_supply
    split
    · exact foldl_preserve acpiState._fans (visit_power_supply d)
        (visit_ps_fans d) fs.power_supply s
    · rfl
  have hth : ∀ s : acpiState, ∃ t, (acquire_thermal fs d s)._fans =
      s._fans ++ t ∧ (d &&& dev_fan = 0 → t = []) ∧
      ∀ x ∈ t, ∃ dv, x = mk_fan dv := by
    intro s
    unfold acquire_thermal
    split
    · exact foldl_app_gen acpiState._fans (visit_thermal d) _ _
        (visit_th_fans d) fs.thermal s
    · exact ⟨[], by simp, fun _ => rfl, by simp⟩
  unfold acquire
  dsimp only
  split
  · split
    · obtain ⟨t, h1, h2, h3⟩ := hth (acquire_power_supply fs d st)
      exact ⟨t, by rw [h1, hps], h2, h3⟩
    · exact hth st
  · split
    · exact ⟨[], by rw [hps]; simp, fun _ => rfl, by simp⟩
    · exact ⟨[], by simp, fun _ => rfl, by simp⟩

/-! ### Field-tracking lemmas for the battery derivation stages -/

theorem recalc_last_capacity_rate (b : battery_extended) :
    (recalc_last_capacity b).present_rate = b.present_rate := by
  unfold recalc_last_capacity
  split_ifs <;> rfl

theorem recalc_last_capacity_energy (b : battery_extended) :
    (recalc_last_capacity b).remaining_energy = b.remaining_energy := by
  unfold recalc_last_capacity
  split_ifs <;> rfl

theorem recalc_last_capacity_remcap (b : battery_extended) :
    (recalc_last_capacity b).remaining_capacity = b.remaining_capacity := by
  unfold recalc_last_capacity
  split_ifs <;> rfl

theorem recalc_last_capacity_voltage (b : battery_extended) :
    (recalc_last_capacity b).voltage = b.voltage := by
  unfold recalc_last_capacity
  split_ifs <;> rfl

theorem recalc_remaining_keeps_rate (b : battery_extended)
    (h : ¬ (b.remaining_energy ≠ -1 ∧ b.remaining_capacity = -1 ∧ b.voltage ≠ -1)) :
    (recalc_remaining b).present_rate = b.present_rate := by
  unfold recalc_remaining
  split_ifs with h1 h2
  · exact absurd ⟨h1.1, h1.2, h2⟩ h
  · rfl
  · rfl

theorem recalc_remaining_rescales_rate (b : battery_extended)
    (h1 : b.remaining_energy ≠ -1) (h2 : b.remaining_capacity = -1)
    (h3 : b.voltage ≠ -1) :
    (recalc_remaining b).present_rate = Int.tdiv (b.present_rate * 1000) b.voltage := by
  unfold recalc_remaining
  rw [if_pos ⟨h1, h2⟩, if_pos h3]

theorem compute_percentage_spec (b : battery_extended) :
    (compute_percentage b).percentage =
      (let p : Int := if 100 * b.last_capacity < 1 then 0
          else Int.tdiv (b.remaining_capacity * 100) b.last_capacity
       if p > 100 then 100 else p) := rfl

theorem compute_percentage_rate (b : battery_extended) :
    (compute_percentage b).present_rate = b.present_rate := rfl

theorem compute_percentage_remcap (b : battery_extended) :
    (compute_percentage b).remaining_capacity = b.remaining_capacity := rfl

theorem compute_seconds_keeps (b : battery_extended) :
    (compute_seconds b).present_rate = b.present_rate ∧
    (compute_seconds b).remaining_capacity = b.remaining_capacity ∧
    (compute_seconds b).last_capacity = b.last_capacity ∧
    (compute_seconds b).charge_state = b.charge_state ∧
    (compute_seconds b).percentage = b.percentage := ⟨rfl, rfl, rfl, rfl, rfl⟩

theorem compute_seconds_val (b : battery_extended) :
    (compute_seconds b).seconds =
      (if b.present_rate = -1 then -1
       else if b.charge_state = charge_state_enum.charge then
         if 100 * b.present_rate > 1 then
           Int.tdiv (3600 * (b.last_capacity - b.remaining_capacity)) b.present_rate
         else -1
       else if b.charge_state = charge_state_enum.discharge then
         if 100 * b.present_rate > 1 then
           Int.tdiv (3600 * b.remaining_capacity) b.present_rate
         else -1
       else -1) := rfl

/-! ### Concrete sysfs fixtures -/

/-- The spec's worked battery scenario: `type=Battery`, `status=Discharging`,
`charge_now=3000000`, `charge_full=6000000`, `current_now=1000000`,
`voltage_now=12000000` (newline-terminated attribute files, as sysfs
exposes them). -/
def devBat : device :=
  { name := "BAT0", readable := true
  , attrs := [("type", "Battery\n"), ("status", "Discharging\n"),
              ("charge_now", "3000000\n"), ("charge_full", "6000000\n"),
              ("current_now", "1000000\n"), ("voltage_now", "12000000\n")] }

/-- A device tree exposing exactly one battery directory. -/
def fsBat : sysfs :=
  { root_reachable := true, power_supply := [devBat], thermal := [] }

/-- A battery directory exposing only `charge_full` (50 mAh after unit
conversion); `charge_now` and `energy_now` are absent. -/
def devNeg : device :=
  { name := "BAT1", readable := true
  , attrs := [("type", "Battery\n"), ("charge_full", "50000\n")] }

/-- A device tree exposing exactly the `devNeg` battery. -/
def fsNeg : sysfs :=
  { root_reachable := true, power_supply := [devNeg], thermal := [] }

/-- A battery directory exposing `energy_now` and `voltage_now` but no
`charge_now`, `current_now` or `power_now`. -/
def devEnergy : device :=
  { name := "BAT2", readable := true
  , attrs := [("type", "Battery\n"), ("energy_now", "24000000\n"),
              ("voltage_now", "12000000\n")] }

/-- A device tree with every category present but the root unreachable. -/
def fsUnreachable : sysfs :=
  { root_reachable := false, power_supply := [devBat], thermal := [] }

/-! ### C1 -/

/-- C1: the claim says `acquire(mask)` replaces each requested kind's list
with the entries discovered in the pass, so that two successive
`acquire(all)` calls over an unchanged tree yield value-equal result sets.
Evaluating the code at the failing input — one battery directory, two
successive full acquisitions from the freshly-constructed state — shows the
Linux pass appends instead: the first call yields one battery, the second
leaves the list at two entries, so the second result set is not value-equal
to the first. -/
theorem C1_second_acquire_duplicates :
    (acquire fsBat dev_all acpiState.empty)._batteries.length = 1 ∧
    (acquire fsBat dev_all (acquire fsBat dev_all acpiState.empty))._batteries.length = 2 ∧
    acquire fsBat dev_all (acquire fsBat dev_all acpiState.empty) ≠
      acquire fsBat dev_all acpiState.empty := by
  refine ⟨rfl, rfl, ?_⟩
  decide

/-! ### C5 -/

/-- C5: for an attribute directory with `type=Battery`,
`status=Discharging`, `charge_now=3000000`, `charge_full=6000000`,
`current_now=1000000`, `voltage_now=12000000`, battery acquisition produces
`remaining_capacity=3000`, `last_capacity=6000`, `present_rate=1000`,
`percentage=50`, `seconds=10800`. -/
theorem C5_worked_scenario :
    (acquire fsBat dev_all acpiState.empty)._batteries.length = 1 ∧
    (let b := (acquire fsBat dev_all acpiState.empty)._batteries.getD 0
        default_battery_extended
     b.remaining_capacity = 3000 ∧ b.last_capacity = 6000 ∧
       b.present_rate = 1000 ∧ b.percentage = 50 ∧ b.seconds = 10800 ∧
       b.charge_state = charge_state_enum.discharge) := by
  refine ⟨rfl, rfl, rfl, rfl, rfl, rfl, rfl⟩

/-! ### C2 -/

/-- C2 counterexample: the claim says every acquired battery satisfies
`0 <= percentage <= 100` whatever attribute files are present or absent.
A battery directory exposing only `charge_full=50000` (so
`remaining_capacity` keeps its absence sentinel `-1` while
`last_capacity = 50`) yields `percentage = (-1 * 100) / 50 = -2 < 0`. -/
theorem C2_negative_percentage :
    (acquire fsNeg dev_all acpiState.empty)._batteries.length = 1 ∧
    ((acquire fsNeg dev_all acpiState.empty)._batteries.getD 0
        default_battery_extended).percentage = -2 ∧
    ¬ 0 ≤ ((acquire fsNeg dev_all acpiState.empty)._batteries.getD 0
        default_battery_extended).percentage := by
  refine ⟨rfl, rfl, ?_⟩
  decide

/-- C2 (amended): every battery produced by an acquisition pass has
`percentage ≤ 100`, and `0 ≤ percentage` holds whenever the battery's
derived `remaining_capacity` is nonnegative; when the remaining-capacity
reading is absent or negative the percentage may be negative (the code
clamps only the upper bound). -/
theorem C2_percentage_bounds :
    (∀ dev : device, (mk_battery dev).percentage ≤ 100 ∧
      (0 ≤ (mk_battery dev).remaining_capacity → 0 ≤ (mk_battery dev).percentage)) ∧
    ∀ (fs : sysfs) (d : Nat) (st : acpiState),
      ∃ t, (acquire fs d st)._batteries = st._batteries ++ t ∧
        ∀ b ∈ t, b.percentage ≤ 100 ∧
          (0 ≤ b.remaining_capacity → 0 ≤ b.percentage) := by
  have key : ∀ dev : device, (mk_battery dev).percentage ≤ 100 ∧
      (0 ≤ (mk_battery dev).remaining_capacity → 0 ≤ (mk_battery dev).percentage) := by
    intro dev
    unfold mk_battery
    obtain ⟨-, hrem, -, -, hpct⟩ := compute_seconds_keeps
      (compute_percentage (recalc_remaining (recalc_last_capacity (read_battery_raw dev))))
    rw [hpct, hrem, compute_percentage_remcap, compute_percentage_spec]
    dsimp only
    constructor
    · split_ifs <;> omega
    · intro h
      split_ifs
      all_goals try norm_num
      rename_i hA hB
      exact Int.tdiv_nonneg (mul_nonneg h (by norm_num)) (by omega)
  refine ⟨key, ?_⟩
  intro fs d st
  obtain ⟨t, h1, -, h3⟩ := acquire_batteries_append fs d st
  refine ⟨t, h1, ?_⟩
  intro b hb
  obtain ⟨dv, rfl⟩ := h3 b hb
  exact key dv

/-- Witness for `C2_percentage_bounds` at the concrete scenario battery:
its remaining capacity (3000) is nonnegative, so both bounds hold. -/
theorem C2_percentage_bounds_witness :
    0 ≤ (mk_battery devBat).remaining_capacity ∧
    0 ≤ (mk_battery devBat).percentage ∧ (mk_battery devBat).percentage ≤ 100 :=
  ⟨by decide, (C2_percentage_bounds.1 devBat).2 (by decide),
    (C2_percentage_bounds.1 devBat).1⟩

/-! ### C3 -/

/-- A nonempty pre-existing result state used to witness frame properties. -/
def stW : acpiState :=
  { _batteries := [default_battery_extended]
  , _ac_adapters := [default_ac_adapter]
  , _thermal_zones := [default_thermal_zone]
  , _fans := [default_fan] }

/-- C3: for every mask and every device kind not contained in the mask,
`acquire(mask)` leaves that kind's previously-acquired list unchanged
(same entries at the same indices). -/
theorem C3_unrequested_kinds_untouched :
    ∀ (fs : sysfs) (d : Nat) (st : acpiState),
      (d &&& dev_battery = 0 → (acquire fs d st)._batteries = st._batteries) ∧
      (d &&& dev_ac_adapter = 0 → (acquire fs d st)._ac_adapters = st._ac_adapters) ∧
      (d &&& dev_thermal_zone = 0 → (acquire fs d st)._thermal_zones = st._thermal_zones) ∧
      (d &&& dev_fan = 0 → (acquire fs d st)._fans = st._fans) := by
  intro fs d st
  refine ⟨?_, ?_, ?_, ?_⟩
  · intro hz
    obtain ⟨t, h1, h2, -⟩ := acquire_batteries_append fs d st
    rw [h1, h2 hz, List.append_nil]
  · intro hz
    obtain ⟨t, h1, h2, -⟩ := acquire_ac_adapters_append fs d st
    rw [h1, h2 hz, List.append_nil]
  · intro hz
    obtain ⟨t, h1, h2, -⟩ := acquire_thermal_zones_append fs d st
    rw [h1, h2 hz, List.append_nil]
  · intro hz
    obtain ⟨t, h1, h2, -⟩ := acquire_fans_append fs d st
    rw [h1, h2 hz, List.append_nil]

/-- Witness for `C3_unrequested_kinds_untouched`: a battery-only
acquisition over a tree with one battery leaves the pre-existing AC,
thermal-zone and fan lists exactly as they were. -/
theorem C3_unrequested_kinds_untouched_witness :
    (acquire fsBat dev_battery stW)._ac_adapters = stW._ac_adapters ∧
    (acquire fsBat dev_battery stW)._thermal_zones = stW._thermal_zones ∧
    (acquire fsBat dev_battery stW)._fans = stW._fans :=
  ⟨(C3_unrequested_kinds_untouched fsBat dev_battery stW).2.1 (by decide),
   (C3_unrequested_kinds_untouched fsBat dev_battery stW).2.2.1 (by decide),
   (C3_unrequested_kinds_untouched fsBat dev_battery stW).2.2.2 (by decide)⟩

/-! ### C10 -/

/-- C10: on the Linux backend every acquisition pass only appends to the
per-kind result lists: across any sequence of `acquire` calls, each kind's
previous list stays as a prefix (same entries at the same indices), so no
count ever decreases. -/
theorem C10_acquire_append_only :
    ∀ (fs : sysfs) (masks : List Nat) (st : acpiState),
      ∃ t1 t2 t3 t4,
        (masks.foldl (fun s m => acquire fs m s) st)._batteries = st._batteries ++ t1 ∧
        (masks.foldl (fun s m => acquire fs m s) st)._ac_adapters = st._ac_adapters ++ t2 ∧
        (masks.foldl (fun s m => acquire fs m s) st)._thermal_zones = st._thermal_zones ++ t3 ∧
        (masks.foldl (fun s m => acquire fs m s) st)._fans = st._fans ++ t4 := by
  intro fs masks
  induction masks with
  | nil =>
    intro st
    exact ⟨[], [], [], [], by simp, by simp, by simp, by simp⟩
  | cons m ms ih =>
    intro st
    obtain ⟨t1, h1, -, -⟩ := acquire_batteries_append fs m st
    obtain ⟨t2, h2, -, -⟩ := acquire_ac_adapters_append fs m st
    obtain ⟨t3, h3, -, -⟩ := acquire_thermal_zones_append fs m st
    obtain ⟨t4, h4, -, -⟩ := acquire_fans_append fs m st
    obtain ⟨u1, u2, u3, u4, g1, g2, g3, g4⟩ := ih (acquire fs m st)
    refine ⟨t1 ++ u1, t2 ++ u2, t3 ++ u3, t4 ++ u4, ?_, ?_, ?_, ?_⟩
    · rw [List.foldl_cons, g1, h1, List.append_assoc]
    · rw [List.foldl_cons, g2, h2, List.append_assoc]
    · rw [List.foldl_cons, g3, h3, List.append_assoc]
    · rw [List.foldl_cons, g4, h4, List.append_assoc]

/-! ### C4 -/

/-- C4: for every battery produced by the battery branch, the derived
`seconds` field obeys the claimed case analysis: `-1` when `present_rate`
is `-1`; when charging, `3600 * (last_capacity - remaining_capacity) /
present_rate` if `present_rate` exceeds `0.01` (for these `int` values,
`100 * present_rate > 1`) and `-1` otherwise; when discharging,
`3600 * remaining_capacity / present_rate` under the same threshold and
`-1` otherwise; `-1` for any other charge state. -/
theorem C4_seconds_formula :
    ∀ dev : device,
      ((mk_battery dev).present_rate = -1 → (mk_battery dev).seconds = -1) ∧
      ((mk_battery dev).charge_state = charge_state_enum.charge →
        100 * (mk_battery dev).present_rate > 1 →
        (mk_battery dev).seconds = Int.tdiv
          (3600 * ((mk_battery dev).last_capacity - (mk_battery dev).remaining_capacity))
          (mk_battery dev).present_rate) ∧
      ((mk_battery dev).charge_state = charge_state_enum.charge →
        ¬ 100 * (mk_battery dev).present_rate > 1 → (mk_battery dev).seconds = -1) ∧
      ((mk_battery dev).charge_state = charge_state_enum.discharge →
        100 * (mk_battery dev).present_rate > 1 →
        (mk_battery dev).seconds = Int.tdiv
          (3600 * (mk_battery dev).remaining_capacity) (mk_battery dev).present_rate) ∧
      ((mk_battery dev).charge_state = charge_state_enum.discharge →
        ¬ 100 * (mk_battery dev).present_rate > 1 → (mk_battery dev).seconds = -1) ∧
      ((mk_battery dev).charge_state ≠ charge_state_enum.charge →
        (mk_battery dev).charge_state ≠ charge_state_enum.discharge →
        (mk_battery dev).seconds = -1) := by
  intro dev
  unfold mk_battery
  obtain ⟨hr, hrem, hlast, hcs, -⟩ := compute_seconds_keeps
    (compute_percentage (recalc_remaining (recalc_last_capacity (read_battery_raw dev))))
  rw [hr, hrem, hlast, hcs, compute_seconds_val]
  set b := compute_percentage (recalc_remaining (recalc_last_capacity (read_battery_raw dev)))
    with hb
  refine ⟨?_, ?_, ?_, ?_, ?_, ?_⟩
  · intro h
    rw [if_pos h]
  · intro hc h
    rw [if_neg (by omega), if_pos hc, if_pos h]
  · intro hc h
    by_cases hneg : b.present_rate = -1
    · rw [if_pos hneg]
    · rw [if_neg hneg, if_pos hc, if_neg h]
  · intro hc h
    rw [if_neg (by omega), if_neg (by simp [hc]), if_pos hc, if_pos h]
  · intro hc h
    by_cases hneg : b.present_rate = -1
    · rw [if_pos hneg]
    · rw [if_neg hneg, if_neg (by simp [hc]), if_pos hc, if_neg h]
  · intro h1 h2
    by_cases hneg : b.present_rate = -1
    · rw [if_pos hneg]
    · rw [if_neg hneg, if_neg h1, if_neg h2]

/-- Witness for `C4_seconds_formula`: the scenario battery is discharging
at rate 1000, so its `seconds` equals `3600 * 3000 / 1000`. -/
theorem C4_seconds_formula_witness :
    (mk_battery devBat).charge_state = charge_state_enum.discharge ∧
    100 * (mk_battery devBat).present_rate > 1 ∧
    (mk_battery devBat).seconds = Int.tdiv
      (3600 * (mk_battery devBat).remaining_capacity) (mk_battery devBat).present_rate :=
  ⟨by decide, by decide, (C4_seconds_formula devBat).2.2.2.1 (by decide) (by decide)⟩

/-! ### C6 -/

/-- C6: for every entity kind, an index outside `[0, count)` makes the
indexed accessor return the kind's default (zeroed/empty) value, and an
index inside `[0, count)` returns the stored entry (for batteries, its
public `battery` part, as the C++ by-value return slices
`battery_extended` to `battery`). -/
theorem C6_indexed_access :
    ∀ st : acpiState,
      (∀ i : Int, i < 0 ∨ (st._batteries.length : Int) ≤ i →
        battery_at st i = default_battery) ∧
      (∀ j : Fin st._batteries.length,
        battery_at st (j.val : Int) = (st._batteries.get j).tobattery) ∧
      (∀ i : Int, i < 0 ∨ (st._ac_adapters.length : Int) ≤ i →
        ac_adapter_at st i = default_ac_adapter) ∧
      (∀ j : Fin st._ac_adapters.length,
        ac_adapter_at st (j.val : Int) = st._ac_adapters.get j) ∧
      (∀ i : Int, i < 0 ∨ (st._thermal_zones.length : Int) ≤ i →
        thermal_zone_at st i = default_thermal_zone) ∧
      (∀ j : Fin st._thermal_zones.length,
        thermal_zone_at st (j.val : Int) = st._thermal_zones.get j) ∧
      (∀ i : Int, i < 0 ∨ (st._fans.length : Int) ≤ i →
        fan_at st i = default_fan) ∧
      (∀ j : Fin st._fans.length, fan_at st (j.val : Int) = st._fans.get j) := by
  intro st
  refine ⟨?_, ?_, ?_, ?_, ?_, ?_, ?_, ?_⟩
  · intro i hi
    rw [battery_at, if_neg]
    rintro ⟨h1, h2⟩
    rcases hi with h | h <;> omega
  · intro j
    rw [battery_at, if_pos ⟨Int.natCast_nonneg j.val, by exact_mod_cast j.isLt⟩,
      Int.toNat_natCast, List.getD_eq_getElem?_getD,
      List.getElem?_eq_getElem j.isLt, Option.getD_some, List.get_eq_getElem]
  · intro i hi
    rw [ac_adapter_at, if_neg]
    rintro ⟨h1, h2⟩
    rcases hi with h | h <;> omega
  · intro j
    rw [ac_adapter_at, if_pos ⟨Int.natCast_nonneg j.val, by exact_mod_cast j.isLt⟩,
      Int.toNat_natCast, List.getD_eq_getElem?_getD,
      List.getElem?_eq_getElem j.isLt, Option.getD_some, List.get_eq_getElem]
  · intro i hi
    rw [thermal_zone_at, if_neg]
    rintro ⟨h1, h2⟩
    rcases hi with h | h <;> omega
  · intro j
    rw [thermal_zone_at, if_pos ⟨Int.natCast_nonneg j.val, by exact_mod_cast j.isLt⟩,
      Int.toNat_natCast, List.getD_eq_getElem?_getD,
      List.getElem?_eq_getElem j.isLt, Option.getD_some, List.get_eq_getElem]
  · intro i hi
    rw [fan_at, if_neg]
    rintro ⟨h1, h2⟩
    rcases hi with h | h <;> omega
  · intro j
    rw [fan_at, if_pos ⟨Int.natCast_nonneg j.val, by exact_mod_cast j.isLt⟩,
      Int.toNat_natCast, List.getD_eq_getElem?_getD,
      List.getElem?_eq_getElem j.isLt, Option.getD_some, List.get_eq_getElem]

/-- Witness for `C6_indexed_access` on a state with one entry per kind:
negative and too-large indices give the defaults, index 0 gives the stored
entry. -/
theorem C6_indexed_access_witness :
    battery_at stW (-1) = default_battery ∧
    battery_at stW 1 = default_battery ∧
    ac_adapter_at stW 7 = default_ac_adapter ∧
    thermal_zone_at stW (-3) = default_thermal_zone ∧
    fan_at stW 2 = default_fan ∧
    battery_at stW 0 = (stW._batteries.get ⟨0, by decide⟩).tobattery :=
  ⟨(C6_indexed_access stW).1 (-1) (Or.inl (by decide)),
   (C6_indexed_access stW).1 1 (Or.inr (by decide)),
   (C6_indexed_access stW).2.2.1 7 (Or.inr (by decide)),
   (C6_indexed_access stW).2.2.2.2.1 (-3) (Or.inl (by decide)),
   (C6_indexed_access stW).2.2.2.2.2.2.1 2 (Or.inr (by decide)),
   (C6_indexed_access stW).2.1 ⟨0, by decide⟩⟩

/-! ### C7 -/

/-- A 64-character attribute content — 63 letters and a final newline —
whose length is an exact multiple of the 64-byte read buffer. -/
def c64 : String := String.mk (List.replicate 63 'a' ++ ['\n'])

/-- A device exposing `c64` as an attribute file. -/
def dev64 : device := { name := "X", readable := true, attrs := [("attr", c64)] }

/-- C7 counterexample: the claim says that with trimming requested exactly
the content's final character is omitted when it is a newline.  For a
64-character content ending in a newline the single `fread` returns a full
buffer (`n = BUF_SZ`), the `n < BUF_SZ` trim guard fails, and the newline
is kept: the reader returns the content unmodified. -/
theorem C7_trim_skips_full_buffer :
    c64.data.getLast? = some '\n' ∧
    read_all dev64 "attr" true = c64 ∧
    read_all dev64 "attr" true ≠ String.mk c64.data.dropLast := by
  refine ⟨by decide, rfl, by decide⟩

/-- C7 (amended): the attribute reader returns the file content, and the
empty string on any open failure, never signalling an error; with trimming
requested, the final character is omitted exactly when it is a newline and
the content's length is not a positive multiple of the 64-byte read buffer
(a buffer-multiple content is returned unmodified, newline included); no
other character is ever removed. -/
theorem C7_read_all_contract :
    ∀ (dev : device) (name : String),
      (lookupAttr dev.attrs name = none → ∀ trim : Bool, read_all dev name trim = "") ∧
      ∀ c : String, lookupAttr dev.attrs name = some c →
        read_all dev name false = c ∧
        (c.data.length % 64 = 0 → read_all dev name true = c) ∧
        (c.data.getLast? ≠ some '\n' → read_all dev name true = c) ∧
        (c.data.length % 64 ≠ 0 → c.data.getLast? = some '\n' →
          read_all dev name true = String.mk c.data.dropLast) := by
  intro dev name
  constructor
  · intro h trim
    unfold read_all
    rw [h]
  · intro c h
    unfold read_all
    rw [h]
    dsimp only
    refine ⟨?_, ?_, ?_, ?_⟩
    · rw [read_chunks_id false c.data (Or.inl rfl)]
    · intro hm
      rw [read_chunks_id true c.data (Or.inr (Or.inl hm))]
    · intro hl
      rw [read_chunks_id true c.data (Or.inr (Or.inr hl))]
    · intro hm hl
      rw [read_chunks_trim_last c.data hm hl]

/-- Witness for `C7_read_all_contract`: a short newline-terminated content
is returned with exactly the newline removed, and a missing attribute reads
as the empty string. -/
theorem C7_read_all_contract_witness :
    read_all dev64 "absent" true = "" ∧
    read_all devBat "status" true = String.mk "Discharging\n".data.dropLast :=
  ⟨(C7_read_all_contract dev64 "absent").1 (by decide) true,
   ((C7_read_all_contract devBat "status").2 "Discharging\n" (by decide)).2.2.2
     (by decide) (by decide)⟩

/-! ### C8 -/

theorem read_all_absent (dev : device) (name : String) (trim : Bool)
    (h : lookupAttr dev.attrs name = none) : read_all dev name trim = "" := by
  unfold read_all
  rw [h]

theorem readIntField_absent (dev : device) (name : String)
    (h : lookupAttr dev.attrs name = none) : readIntField dev name = -1 := by
  unfold readIntField
  rw [read_all_absent dev name true h]
  simp

theorem read_battery_raw_remcap (dev : device) :
    (read_battery_raw dev).remaining_capacity = readIntField dev "charge_now" := rfl

theorem read_battery_raw_energy (dev : device) :
    (read_battery_raw dev).remaining_energy = readIntField dev "energy_now" := rfl

theorem read_battery_raw_lastcap (dev : device) :
    (read_battery_raw dev).last_capacity = readIntField dev "charge_full" := rfl

theorem read_battery_raw_lastcapu (dev : device) :
    (read_battery_raw dev).last_capacity_unit = readIntField dev "energy_full" := rfl

theorem read_battery_raw_voltage (dev : device) :
    (read_battery_raw dev).voltage =
      (if readIntField dev "voltage_now" = 0 then -1
       else readIntField dev "voltage_now") := rfl

theorem read_battery_raw_rate (dev : device) :
    (read_battery_raw dev).present_rate =
      (let s :=
        (let s0 := read_all dev "current_now" true
         if s0 = "" then read_all dev "power_now" true else s0)
       if s = "" then -1 else Int.tdiv (unit_value s) 1000) := rfl

/-- An empty battery directory: every attribute file is absent. -/
def devEmpty : device := { name := "BATX", readable := true, attrs := [] }

/-- A battery directory whose `voltage_now` reads as zero after the
micro-to-milli division. -/
def devVolt : device :=
  { name := "BATV", readable := true, attrs := [("voltage_now", "500\n")] }

/-- C8 counterexample: the claim says `present_rate` is `-1` in the final
battery record whenever both `current_now` and `power_now` are absent.  On
a directory exposing only `energy_now` and `voltage_now`, the energy-based
rescaling multiplies the `-1` sentinel by 1000 and divides by the voltage,
leaving `present_rate = 0`, not `-1`. -/
theorem C8_present_rate_rescaled_from_sentinel :
    lookupAttr devEnergy.attrs "current_now" = none ∧
    lookupAttr devEnergy.attrs "power_now" = none ∧
    (mk_battery devEnergy).present_rate = 0 ∧
    ¬ (mk_battery devEnergy).present_rate = -1 := by
  refine ⟨rfl, rfl, rfl, by decide⟩

/-- C8 (amended): each raw numeric field whose source file is absent is
read as `-1` (for `present_rate`, when both `current_now` and `power_now`
are absent), and an exactly-zero `voltage_now` reading is normalised to
`-1`; a `-1` raw `present_rate` survives to the final record unless the
energy-based rescaling branch applies (`energy_now` read, `charge_now`
not, voltage known), in which case the final `present_rate` is
`(-1000) / voltage` (C truncation). -/
theorem C8_absent_yields_sentinels :
    ∀ dev : device,
      (lookupAttr dev.attrs "charge_now" = none →
        (read_battery_raw dev).remaining_capacity = -1) ∧
      (lookupAttr dev.attrs "energy_now" = none →
        (read_battery_raw dev).remaining_energy = -1) ∧
      (lookupAttr dev.attrs "current_now" = none →
        lookupAttr dev.attrs "power_now" = none →
        (read_battery_raw dev).present_rate = -1) ∧
      (lookupAttr dev.attrs "charge_full" = none →
        (read_battery_raw dev).last_capacity = -1) ∧
      (lookupAttr dev.attrs "energy_full" = none →
        (read_battery_raw dev).last_capacity_unit = -1) ∧
      (lookupAttr dev.attrs "voltage_now" = none →
        (read_battery_raw dev).voltage = -1) ∧
      (readIntField dev "voltage_now" = 0 → (read_battery_raw dev).voltage = -1) ∧
      ((read_battery_raw dev).present_rate = -1 →
        ¬ ((read_battery_raw dev).remaining_energy ≠ -1 ∧
           (read_battery_raw dev).remaining_capacity = -1 ∧
           (read_battery_raw dev).voltage ≠ -1) →
        (mk_battery dev).present_rate = -1) ∧
      ((read_battery_raw dev).present_rate = -1 →
        (read_battery_raw dev).remaining_energy ≠ -1 →
        (read_battery_raw dev).remaining_capacity = -1 →
        (read_battery_raw dev).voltage ≠ -1 →
        (mk_battery dev).present_rate =
          Int.tdiv (-1000) (read_battery_raw dev).voltage) := by
  intro dev
  have hfinal : (mk_battery dev).present_rate =
      (recalc_remaining (recalc_last_capacity (read_battery_raw dev))).present_rate := by
    unfold mk_battery
    rw [(compute_seconds_keeps _).1, compute_percentage_rate]
  refine ⟨?_, ?_, ?_, ?_, ?_, ?_, ?_, ?_, ?_⟩
  · intro h
    rw [read_battery_raw_remcap]
    exact readIntField_absent dev "charge_now" h
  · intro h
    rw [read_battery_raw_energy]
    exact readIntField_absent dev "energy_now" h
  · intro h1 h2
    rw [read_battery_raw_rate]
    simp [read_all_absent dev "current_now" true h1,
      read_all_absent dev "power_now" true h2]
  · intro h
    rw [read_battery_raw_lastcap]
    exact readIntField_absent dev "charge_full" h
  · intro h
    rw [read_battery_raw_lastcapu]
    exact readIntField_absent dev "energy_full" h
  · intro h
    rw [read_battery_raw_voltage, readIntField_absent dev "voltage_now" h]
    simp
  · intro h
    rw [read_battery_raw_voltage, h]
    simp
  · intro hraw hnot
    rw [hfinal]
    have hcnot : ¬ ((recalc_last_capacity (read_battery_raw dev)).remaining_energy ≠ -1 ∧
        (recalc_last_capacity (read_battery_raw dev)).remaining_capacity = -1 ∧
        (recalc_last_capacity (read_battery_raw dev)).voltage ≠ -1) := by
      rw [recalc_last_capacity_energy, recalc_last_capacity_remcap,
        recalc_last_capacity_voltage]
      exact hnot
    rw [recalc_remaining_keeps_rate _ hcnot, recalc_last_capacity_rate]
    exact hraw
  · intro hraw he hc0 hv
    rw [hfinal]
    have h1 : (recalc_last_capacity (read_battery_raw dev)).remaining_energy ≠ -1 := by
      rw [recalc_last_capacity_energy]
      exact he
    have h2 : (recalc_last_capacity (read_battery_raw dev)).remaining_capacity = -1 := by
      rw [recalc_last_capacity_remcap]
      exact hc0
    have h3 : (recalc_last_capacity (read_battery_raw dev)).voltage ≠ -1 := by
      rw [recalc_last_capacity_voltage]
      exact hv
    rw [recalc_remaining_rescales_rate _ h1 h2 h3, recalc_last_capacity_rate,
      recalc_last_capacity_voltage, hraw]
    norm_num

/-- Witness for `C8_absent_yields_sentinels`: the all-absent directory
reads every raw field as `-1` and keeps `present_rate = -1` to the end;
the 500-microvolt directory reads voltage zero and normalises it to
`-1`. -/
theorem C8_absent_yields_sentinels_witness :
    (read_battery_raw devEmpty).remaining_capacity = -1 ∧
    (read_battery_raw devEmpty).present_rate = -1 ∧
    (mk_battery devEmpty).present_rate = -1 ∧
    (read_battery_raw devVolt).voltage = -1 :=
  ⟨(C8_absent_yields_sentinels devEmpty).1 (by decide),
   (C8_absent_yields_sentinels devEmpty).2.2.1 (by decide) (by decide),
   (C8_absent_yields_sentinels devEmpty).2.2.2.2.2.2.2.1 (by decide) (by decide),
   (C8_absent_yields_sentinels devVolt).2.2.2.2.2.2.1 (by decide)⟩

/-! ### C9 -/

/-- C9: `has_support()` is true exactly when the device-tree root is
reachable; with the root unreachable, `has_support()` is false and an
acquisition pass adds no entry and raises no error — from the
freshly-constructed state every kind's count is zero. -/
theorem C9_unreachable_root :
    ∀ fs : sysfs,
      (has_acpi_support fs = true ↔ fs.root_reachable = true) ∧
      (fs.root_reachable = false →
        has_acpi_support fs = false ∧
        (∀ (d : Nat) (st : acpiState), acquire fs d st = st) ∧
        ∀ d : Nat,
          (acquire fs d acpiState.empty)._batteries.length = 0 ∧
          (acquire fs d acpiState.empty)._ac_adapters.length = 0 ∧
          (acquire fs d acpiState.empty)._thermal_zones.length = 0 ∧
          (acquire fs d acpiState.empty)._fans.length = 0) := by
  intro fs
  refine ⟨Iff.rfl, ?_⟩
  intro h
  have hacq : ∀ (d : Nat) (st : acpiState), acquire fs d st = st := by
    intro d st
    unfold acquire acquire_power_supply acquire_thermal
    rw [h]
    simp
  refine ⟨by rw [has_acpi_support, h], hacq, ?_⟩
  intro d
  rw [hacq d acpiState.empty]
  exact ⟨rfl, rfl, rfl, rfl⟩

/-- Witness for `C9_unreachable_root` at a tree whose root is unreachable
despite a populated battery directory. -/
theorem C9_unreachable_root_witness :
    has_acpi_support fsUnreachable = false ∧
    acquire fsUnreachable dev_all acpiState.empty = acpiState.empty ∧
    (acquire fsUnreachable dev_all acpiState.empty)._batteries.length = 0 :=
  ⟨((C9_unreachable_root fsUnreachable).2 rfl).1,
   ((C9_unreachable_root fsUnreachable).2 rfl).2.1 dev_all acpiState.empty,
   (((C9_unreachable_root fsUnreachable).2 rfl).2.2 dev_all).1⟩
